import Mathlib

/-!
Shallow embedding of the rustbox terminal-rendering library (src/lib.rs).
Pure data (colors, styles, cells, escape codes) is translated directly.
Effectful parts are modelled by explicit state passing:
device writes become lists of results fed to the flush loop, the buffered
file is its pending chunk list, and the teardown (Drop) becomes an explicit
event trace.  Machine integers (u16 color indices, u16 geometry) are Nat;
the only masking in the source, the low-8-bit mask on color indices in
present, is kept as a Nat bitwise-and.
-/

/-- Escape code EnterCa: built by build_term_code from the fragment
after the CSI introducer. -/
def enterCaCode : String := "\x1b[?1049h\x1b[22;0;0t"

/-- Escape code ExitCa. -/
def exitCaCode : String := "\x1b[?1049l\x1b[23;0;0t"

/-- Escape code ClearScreen. -/
def clearScreenCode : String := "\x1b[H\x1b[2J"

/-- Escape code HideCursor. -/
def hideCursorCode : String := "\x1b[?25l"

/-- Escape code ShowCursor. -/
def showCursorCode : String := "\x1b[?25h"

/-- Escape code SGR0 (reset attributes). -/
def sgr0Code : String := "\x1b[m\x0f"

/-- Escape code EnterKeypad. -/
def enterKeypadCode : String := "\x1b="

/-- Escape code ExitKeypad. -/
def exitKeypadCode : String := "\x1b>"

/-- Style enum from the source. -/
inductive Style where
  | Normal
  | Underline
  | Bold
  | Blink
  | Reverse
deriving DecidableEq

/-- Color enum from the source. -/
inductive Color where
  | Black
  | Red
  | White
deriving DecidableEq

/-- Color::as_256_color (u16 in the source; the values 0, 1, 7 never
overflow, so Nat is faithful). -/
def Color.as_256_color : Color → Nat
  | Color.Black => 0
  | Color.Red => 1
  | Color.White => 7

/-- Cell: one screen position, field order as in the source struct. -/
structure Cell where
  ch : Char
  bg : Color
  fg : Color
  style : Style
deriving DecidableEq

/-- One write! call inside the per-cell body of RustBox::present.  The five
write sites of the loop, in source order: the SGR0 reset, the style
fragment (skipped for Normal), the 256-color foreground and background
selectors, and the cell character itself. -/
inductive WriteEvent where
  | sgr0 : WriteEvent
  | styleCode : Style → WriteEvent
  | setFg : Nat → WriteEvent
  | setBg : Nat → WriteEvent
  | ch : Char → WriteEvent
deriving DecidableEq

/-- The literal text each write site emits (styleCode Normal has no source
write site; it is mapped to the empty string and never produced below). -/
def WriteEvent.bytes : WriteEvent → String
  | WriteEvent.sgr0 => sgr0Code
  | WriteEvent.styleCode Style.Normal => ""
  | WriteEvent.styleCode Style.Underline => "\x1b[4m"
  | WriteEvent.styleCode Style.Bold => "\x1b[1m"
  | WriteEvent.styleCode Style.Blink => "\x1b[5m"
  | WriteEvent.styleCode Style.Reverse => "\x1b[7m"
  | WriteEvent.setFg n => "\x1b[38;5;" ++ toString n ++ "m"
  | WriteEvent.setBg n => "\x1b[48;5;" ++ toString n ++ "m"
  | WriteEvent.ch c => String.mk [c]

/-- Extract the character payload, when the event is the character write. -/
def WriteEvent.charPayload : WriteEvent → Option Char
  | WriteEvent.ch c => some c
  | _ => none

/-- The body of the per-cell loop of RustBox::present: reset, the match on
cell.style (Normal emits nothing), then foreground and background indices
masked with 0xFF, then the character. -/
def cellEvents (cell : Cell) : List WriteEvent :=
  [WriteEvent.sgr0]
    ++ (match cell.style with
        | Style.Normal => []
        | s => [WriteEvent.styleCode s])
    ++ [WriteEvent.setFg (cell.fg.as_256_color &&& 0xFF),
        WriteEvent.setBg (cell.bg.as_256_color &&& 0xFF),
        WriteEvent.ch cell.ch]

/-- The termios snapshot: flag words and the control-character array. -/
structure Termios where
  c_iflag : Nat
  c_oflag : Nat
  c_cflag : Nat
  c_lflag : Nat
  c_cc : List Nat
deriving DecidableEq

/-- mem::zeroed() termios (NCCS = 32 on Linux). -/
def zeroTermios : Termios := ⟨0, 0, 0, 0, List.replicate 32 0⟩

def IGNBRK : Nat := 1
def BRKINT : Nat := 2
def PARMRK : Nat := 8
def ISTRIP : Nat := 32
def INLCR : Nat := 64
def IGNCR : Nat := 128
def ICRNL : Nat := 256
def IXON : Nat := 1024
def OPOST : Nat := 1
def ECHO : Nat := 8
def ECHONL : Nat := 64
def ICANON : Nat := 2
def ISIG : Nat := 1
def IEXTEN : Nat := 32768
def CSIZE : Nat := 48
def PARENB : Nat := 256
def CS8 : Nat := 48
def VMIN : Nat := 6
def VTIME : Nat := 5

/-- Clear the bits of m in x (x & !m on flag words). -/
def clearBits (x m : Nat) : Nat := x - (x &&& m)

/-- The raw-mode mutation of the working termios copy in RustBox::new. -/
def rawMode (ios : Termios) : Termios :=
  { ios with
    c_iflag := clearBits ios.c_iflag
      (IGNBRK ||| BRKINT ||| PARMRK ||| ISTRIP ||| INLCR ||| IGNCR ||| ICRNL ||| IXON),
    c_oflag := clearBits ios.c_oflag OPOST,
    c_lflag := clearBits ios.c_lflag (ECHO ||| ECHONL ||| ICANON ||| ISIG ||| IEXTEN),
    c_cflag := clearBits ios.c_cflag (CSIZE ||| PARENB) ||| CS8,
    c_cc := (ios.c_cc.set VMIN 0).set VTIME 0 }

/-- get_terminal_attr: tcgetattr writes into zeroed storage and its return
value is IGNORED by the source, so the function is total: on query failure
(modelled as a none result from the syscall) the zeroed storage is returned
unchanged. -/
def get_terminal_attr (tcgetattrResult : Option Termios) : Termios :=
  match tcgetattrResult with
  | some ios => ios
  | none => zeroTermios

/-- BufferedFile, reduced to its pending buffer; each element is the chunk
appended by one write! call. -/
structure BufferedFile where
  buf : List String
deriving DecidableEq

/-- RustBox session state, fields as in the source struct. -/
structure RustBox where
  orig_ios : Termios
  outf : BufferedFile
  front_buffer : List (List Cell)
  back_buffer : List (List Cell)
  width : Nat
  height : Nat
deriving DecidableEq

/-- The fill cell of RustBox::new:
Cell \x7b ch: 'x', fg: White, bg: Black, style: Normal \x7d. -/
def initCell : Cell :=
  { ch := 'x', bg := Color.Black, fg := Color.White, style := Style.Normal }

/-- RustBox::new.  Inputs model the environment: the two tcgetattr results
(the source calls get_terminal_attr twice), whether the /dev/tty open
succeeds (its failure panics via unwrap, so no RustBox is produced), and
the ioctl window size.  The derived raw-mode settings are applied to the
device and not stored; only orig_ios is kept.  The startup escape writes
are flushed before the buffers are allocated, so the model starts from an
empty pending buffer. -/
def RustBox.new (attrRes1 attrRes2 : Option Termios) (openOk : Bool)
    (ws_row ws_col : Nat) : Option RustBox :=
  let orig_ios := get_terminal_attr attrRes1
  let _ios := rawMode (get_terminal_attr attrRes2)
  if openOk then
    let back_buffer := List.replicate ws_row (List.replicate ws_col initCell)
    some { orig_ios := orig_ios
           outf := { buf := [] }
           front_buffer := back_buffer
           back_buffer := back_buffer
           width := ws_col
           height := ws_row }
  else none

/-- RustBox::print_char: indexes back_buffer[y][x] and assigns all four
cell fields.  Vec indexing panics out of bounds; the panic is modelled as
none. -/
def RustBox.print_char (rb : RustBox) (x y : Nat) (style : Style)
    (fg : Color) (bg : Color) (ch : Char) : Option RustBox :=
  match rb.back_buffer.get? y with
  | none => none
  | some row =>
    match row.get? x with
    | none => none
    | some _ =>
      some { rb with
        back_buffer :=
          rb.back_buffer.set y
            (row.set x { ch := ch, bg := bg, fg := fg, style := style }) }

/-- The write events RustBox::present issues: the cell loop runs over the
new front buffer, which is a clone of the back buffer, row by row, cell by
cell. -/
def presentEvents (rb : RustBox) : List WriteEvent :=
  (rb.back_buffer.map fun row => (row.map cellEvents).flatten).flatten

/-- RustBox::present: replace the front buffer with a clone of the back
buffer, append the per-cell writes to the pending buffer in traversal
order, then flush (the flush against the device is modelled separately by
flush_inner below). -/
def RustBox.present (rb : RustBox) : RustBox :=
  let fb := rb.back_buffer
  { rb with
    front_buffer := fb,
    outf := { buf := rb.outf.buf ++ (presentEvents rb).map WriteEvent.bytes } }

/-- One result of File::write on the remaining slice: Ok(n), an
ErrorKind::Interrupted error, or any other error kind (abstracted to a
numeric code). -/
inductive DevResult where
  | ok : Nat → DevResult
  | interrupted : DevResult
  | errK : Nat → DevResult
deriving DecidableEq

/-- The error returned by flush_inner: the WriteZero error it constructs,
or the surfaced device error. -/
inductive FlushErr where
  | writeZero : FlushErr
  | ioErr : Nat → FlushErr
deriving DecidableEq

/-- The while loop of BufferedFile::flush_inner.  len is the initial
buffer length, written the bytes confirmed so far, and the list holds the
successive device write results.  Returns the final written count, the
unconsumed results and the error (none on success); returns none when the
modelled result list is exhausted while the loop would issue another
write (the real device call would block). -/
def flushLoop (len : Nat) : Nat → List DevResult →
    Option (Nat × List DevResult × Option FlushErr)
  | written, [] =>
    if written < len then none else some (written, [], none)
  | written, r :: rest =>
    if written < len then
      match r with
      | DevResult.ok 0 => some (written, rest, some FlushErr.writeZero)
      | DevResult.ok (n + 1) => flushLoop len (written + (n + 1)) rest
      | DevResult.interrupted => flushLoop len written rest
      | DevResult.errK c => some (written, rest, some (FlushErr.ioErr c))
    else some (written, r :: rest, none)

/-- Total bytes confirmed by the Ok results of a device-result list. -/
def okSum : List DevResult → Nat
  | [] => 0
  | DevResult.ok n :: rest => n + okSum rest
  | DevResult.interrupted :: rest => okSum rest
  | DevResult.errK _ :: rest => okSum rest

/-- BufferedFile::flush_inner: run the write loop over the buffer, then
drain the confirmed-written prefix (the source drains only when
written > 0; drop written is the same operation for written = 0).  The
buffer element type is abstract: the loop and the drain treat buffered
bytes purely positionally. -/
def flush_inner {α : Type} (buf : List α) (rs : List DevResult) :
    Option (List α × List DevResult × Option FlushErr) :=
  match flushLoop buf.length 0 rs with
  | none => none
  | some (written, rest, e) => some (buf.drop written, rest, e)

/-- BufferedFile::flush: flush_inner().and_then(inner.flush()).  The
device-level flush outcome is the extra input; it is only consulted when
flush_inner succeeds. -/
def flushFull {α : Type} (buf : List α) (rs : List DevResult)
    (devFlush : Option FlushErr) :
    Option (List α × List DevResult × Option FlushErr) :=
  match flush_inner buf rs with
  | none => none
  | some (bufR, rest, none) => some (bufR, rest, devFlush)
  | some (bufR, rest, some e) => some (bufR, rest, some e)

/-- One observable step of the RustBox teardown: a write! into the pending
buffer, the tcsetattr restoring a settings snapshot, or the best-effort
device flush performed when the BufferedFile field is dropped. -/
inductive TeardownEvent where
  | enqueue : String → TeardownEvent
  | restore : Termios → TeardownEvent
  | flushDevice : TeardownEvent
deriving DecidableEq

/-- Drop for RustBox, as an event trace.  The drop body enqueues the four
exit sequences and calls set_terminal_attr(orig_ios); only afterwards are
the struct fields dropped, so the BufferedFile Drop impl (the best-effort
flush of the queued bytes) runs after the settings restore. -/
def dropTrace (rb : RustBox) : List TeardownEvent :=
  [TeardownEvent.enqueue showCursorCode,
   TeardownEvent.enqueue clearScreenCode,
   TeardownEvent.enqueue exitCaCode,
   TeardownEvent.enqueue exitKeypadCode,
   TeardownEvent.restore rb.orig_ios,
   TeardownEvent.flushDevice]

def isRestore : TeardownEvent → Bool
  | TeardownEvent.restore _ => true
  | _ => false

def isFlushDev : TeardownEvent → Bool
  | TeardownEvent.flushDevice => true
  | _ => false

/-- Whether some flush event occurs strictly before some restore event. -/
def flushPrecedesRestore : List TeardownEvent → Bool
  | [] => false
  | e :: rest => (isFlushDev e && rest.any isRestore) || flushPrecedesRestore rest

/-- Whether some restore event occurs strictly before some flush event. -/
def restorePrecedesFlush : List TeardownEvent → Bool
  | [] => false
  | e :: rest => (isRestore e && rest.any isFlushDev) || restorePrecedesFlush rest

/-- A public mutating operation an Active session can run before teardown.
An out-of-bounds print panics in the source; the unwinding still runs the
Drop impls with the state unchanged, so it is modelled as the identity for
trace purposes. -/
inductive SessionOp where
  | print : Nat → Nat → Style → Color → Color → Char → SessionOp
  | present : SessionOp
deriving DecidableEq

def applyOp (rb : RustBox) : SessionOp → RustBox
  | SessionOp.print x y st fg bg c => (rb.print_char x y st fg bg c).getD rb
  | SessionOp.present => rb.present

def applyOps (rb : RustBox) (ops : List SessionOp) : RustBox :=
  ops.foldl applyOp rb

/-- A concrete 1 by 1 session used to instantiate the theorems. -/
def cellA : Cell :=
  { ch := 'A', bg := Color.Black, fg := Color.White, style := Style.Normal }

def rb0 : RustBox :=
  { orig_ios := zeroTermios
    outf := { buf := [] }
    front_buffer := [[cellA]]
    back_buffer := [[cellA]]
    width := 1
    height := 1 }

/-- The session RustBox::new produces on a 1 by 1 terminal with a zeroed
snapshot. -/
def rbNew : RustBox :=
  { orig_ios := zeroTermios
    outf := { buf := [] }
    front_buffer := List.replicate 1 (List.replicate 1 initCell)
    back_buffer := List.replicate 1 (List.replicate 1 initCell)
    width := 1
    height := 1 }

/-! Helper lemmas. -/

lemma cellEvents_charPayload (c : Cell) :
    (cellEvents c).filterMap WriteEvent.charPayload = [c.ch] := by
  obtain ⟨ch, bg, fg, st⟩ := c
  cases st <;> rfl

lemma grid_chars (bb : List (List Cell)) :
    ((bb.map fun row => (row.map cellEvents).flatten).flatten).filterMap
        WriteEvent.charPayload
      = (bb.map (List.map Cell.ch)).flatten := by
  induction bb with
  | nil => rfl
  | cons row rest ih =>
    have hrow : ((row.map cellEvents).flatten).filterMap WriteEvent.charPayload
        = row.map Cell.ch := by
      induction row with
      | nil => rfl
      | cons c cs ihc =>
        simp only [List.map_cons, List.flatten_cons, List.filterMap_append,
          cellEvents_charPayload, ihc, List.singleton_append]
    simp only [List.map_cons, List.flatten_cons, List.filterMap_append, hrow, ih]

lemma sum_const_list (l : List Nat) (w : Nat) (h : ∀ x ∈ l, x = w) :
    l.sum = l.length * w := by
  induction l with
  | nil => simp
  | cons x xs ih =>
    have hx : x = w := h x (List.mem_cons_self x xs)
    have hs := ih (fun y hy => h y (List.mem_cons_of_mem x hy))
    simp [hx, hs, Nat.succ_mul, Nat.add_comm]

lemma flatten_map_flatten (bb : List (List Cell)) :
    (bb.map fun row => (row.map cellEvents).flatten).flatten
      = (bb.flatten.map cellEvents).flatten := by
  induction bb with
  | nil => rfl
  | cons row rest ih => simp [ih]

lemma cellEvents_index_le (c : Cell) (n : Nat)
    (h : WriteEvent.setFg n ∈ cellEvents c ∨ WriteEvent.setBg n ∈ cellEvents c) :
    n ≤ 255 := by
  obtain ⟨ch, bg, fg, st⟩ := c
  rcases h with h | h <;> cases st <;> cases fg <;> cases bg <;>
    simp [cellEvents, Color.as_256_color] at h <;> subst h <;> decide

lemma flushLoop_prefix (rs : List DevResult) :
    ∀ (len w w2 : Nat) (rest : List DevResult) (e : Option FlushErr),
      flushLoop len w rs = some (w2, rest, e) →
      ∃ pre, rs = pre ++ rest ∧ w2 = w + okSum pre := by
  induction rs with
  | nil =>
    intro len w w2 rest e h
    by_cases hlt : w < len
    · simp [flushLoop, hlt] at h
    · simp [flushLoop, hlt] at h
      exact ⟨[], by simp [h], by simp [okSum, h]⟩
  | cons r tl ih =>
    intro len w w2 rest e h
    by_cases hlt : w < len
    · cases r with
      | ok n =>
        cases n with
        | zero =>
          simp [flushLoop, hlt] at h
          exact ⟨[DevResult.ok 0], by simp [h], by simp [okSum, h]⟩
        | succ m =>
          simp only [flushLoop, if_pos hlt] at h
          obtain ⟨pre, hpre, hw⟩ := ih len (w + (m + 1)) w2 rest e h
          exact ⟨DevResult.ok (m + 1) :: pre, by simp [hpre],
            by simp [okSum, hw]; omega⟩
      | interrupted =>
        simp only [flushLoop, if_pos hlt] at h
        obtain ⟨pre, hpre, hw⟩ := ih len w w2 rest e h
        exact ⟨DevResult.interrupted :: pre, by simp [hpre], by simp [okSum, hw]⟩
      | errK k =>
        simp [flushLoop, hlt] at h
        exact ⟨[DevResult.errK k], by simp [h], by simp [okSum, h]⟩
    · simp [flushLoop, hlt] at h
      exact ⟨[], by simp [h], by simp [okSum, h]⟩

lemma flushLoop_success_ge (rs : List DevResult) :
    ∀ (len w w2 : Nat) (rest : List DevResult),
      flushLoop len w rs = some (w2, rest, none) → len ≤ w2 := by
  induction rs with
  | nil =>
    intro len w w2 rest h
    by_cases hlt : w < len
    · simp [flushLoop, hlt] at h
    · simp [flushLoop, hlt] at h
      omega
  | cons r tl ih =>
    intro len w w2 rest h
    by_cases hlt : w < len
    · cases r with
      | ok n =>
        cases n with
        | zero => simp [flushLoop, hlt] at h
        | succ m =>
          simp only [flushLoop, if_pos hlt] at h
          exact ih len (w + (m + 1)) w2 rest h
      | interrupted =>
        simp only [flushLoop, if_pos hlt] at h
        exact ih len w w2 rest h
      | errK k => simp [flushLoop, hlt] at h
    · simp [flushLoop, hlt] at h
      omega

lemma listGetSet_eq {α : Type} :
    ∀ (l : List α) (i : Nat) (a : α), i < l.length → (l.set i a).get? i = some a := by
  intro l
  induction l with
  | nil => intro i a h; simp at h
  | cons x xs ih =>
    intro i a h
    cases i with
    | zero => rfl
    | succ j =>
      simp only [List.set]
      exact ih j a (Nat.lt_of_succ_lt_succ h)

lemma listGetSet_ne {α : Type} :
    ∀ (l : List α) (i j : Nat) (a : α), i ≠ j → (l.set i a).get? j = l.get? j := by
  intro l
  induction l with
  | nil => intro i j a _; simp
  | cons x xs ih =>
    intro i j a hne
    cases i with
    | zero =>
      cases j with
      | zero => exact absurd rfl hne
      | succ k => rfl
    | succ i2 =>
      cases j with
      | zero => rfl
      | succ k =>
        simp only [List.set]
        exact ih i2 k a (fun he => hne (by rw [he]))

lemma print_char_some (rb : RustBox) (x y : Nat) (st : Style) (fg bg : Color)
    (c : Char) (row : List Cell) (cell : Cell)
    (hy : rb.back_buffer.get? y = some row) (hx : row.get? x = some cell) :
    rb.print_char x y st fg bg c
      = some { rb with
          back_buffer :=
            rb.back_buffer.set y
              (row.set x { ch := c, bg := bg, fg := fg, style := st }) } := by
  simp only [RustBox.print_char, hy, hx]

lemma print_char_fields (rb : RustBox) (x y : Nat) (st : Style) (fg bg : Color)
    (c : Char) (rbp : RustBox) (h : rb.print_char x y st fg bg c = some rbp) :
    rbp.orig_ios = rb.orig_ios ∧ rbp.front_buffer = rb.front_buffer
      ∧ rbp.outf = rb.outf ∧ rbp.width = rb.width ∧ rbp.height = rb.height
      ∧ rbp.back_buffer.length = rb.back_buffer.length := by
  cases hy : rb.back_buffer.get? y with
  | none => simp only [RustBox.print_char, hy] at h; cases h
  | some row =>
    cases hx : row.get? x with
    | none => simp only [RustBox.print_char, hy, hx] at h; cases h
    | some cell =>
      rw [print_char_some rb x y st fg bg c row cell hy hx] at h
      cases h
      simp [List.length_set]

lemma applyOp_orig (rb : RustBox) (op : SessionOp) :
    (applyOp rb op).orig_ios = rb.orig_ios := by
  cases op with
  | print x y st fg bg c =>
    show ((rb.print_char x y st fg bg c).getD rb).orig_ios = rb.orig_ios
    cases hpc : rb.print_char x y st fg bg c with
    | none => rfl
    | some rbp =>
      simpa using (print_char_fields rb x y st fg bg c rbp hpc).1
  | present => rfl

lemma applyOps_orig (ops : List SessionOp) :
    ∀ rb : RustBox, (applyOps rb ops).orig_ios = rb.orig_ios := by
  induction ops with
  | nil => intro rb; rfl
  | cons op rest ih =>
    intro rb
    show (applyOps (applyOp rb op) rest).orig_ios = rb.orig_ios
    rw [ih (applyOp rb op), applyOp_orig]

lemma new_some (a1 a2 : Option Termios) (r c : Nat) (rb : RustBox)
    (h : RustBox.new a1 a2 true r c = some rb) :
    rb = { orig_ios := get_terminal_attr a1
           outf := { buf := [] }
           front_buffer := List.replicate r (List.replicate c initCell)
           back_buffer := List.replicate r (List.replicate c initCell)
           width := c
           height := r } := by
  unfold RustBox.new at h
  simp only [if_true] at h
  exact (Option.some.inj h).symm

/-! Claim theorems. -/

/-- Claim C1: present emits exactly width times height character payloads,
one per grid cell, in row-major order (the payload sequence equals the
row-major flattening of the grid characters), and the emission depends
only on the back buffer: the previous front buffer and the pending output
are not consulted (no diffing), and every event is one of the five
attribute or payload write sites, so no cursor-positioning sequence is
emitted between cells. -/
theorem present_full_repaint_rowMajor (rb : RustBox)
    (hh : rb.back_buffer.length = rb.height)
    (hw : ∀ row ∈ rb.back_buffer, row.length = rb.width) :
    (presentEvents rb).filterMap WriteEvent.charPayload
        = (rb.back_buffer.map (List.map Cell.ch)).flatten
    ∧ ((presentEvents rb).filterMap WriteEvent.charPayload).length
        = rb.width * rb.height
    ∧ (∀ fb ff, presentEvents { rb with front_buffer := fb, outf := ff }
        = presentEvents rb)
    ∧ (∀ e ∈ presentEvents rb, e = WriteEvent.sgr0
        ∨ (∃ s, e = WriteEvent.styleCode s)
        ∨ (∃ n, e = WriteEvent.setFg n)
        ∨ (∃ n, e = WriteEvent.setBg n)
        ∨ (∃ c, e = WriteEvent.ch c)) := by
  have key : (presentEvents rb).filterMap WriteEvent.charPayload
      = (rb.back_buffer.map (List.map Cell.ch)).flatten := grid_chars rb.back_buffer
  refine ⟨key, ?_, ?_, ?_⟩
  · rw [key, List.length_flatten]
    have hconst : ∀ x ∈ (rb.back_buffer.map (List.map Cell.ch)).map List.length,
        x = rb.width := by
      intro x hx
      rw [List.map_map] at hx
      obtain ⟨row, hrow, hxeq⟩ := List.mem_map.mp hx
      have : (List.map Cell.ch row).length = row.length := List.length_map row Cell.ch
      rw [← hxeq]
      simp only [Function.comp_apply, this]
      exact hw row hrow
    rw [sum_const_list _ rb.width hconst]
    simp only [List.length_map, hh]
    exact Nat.mul_comm rb.height rb.width
  · intro fb ff
    rfl
  · intro e he
    rcases List.mem_flatten.mp he with ⟨l, hl, hel⟩
    rcases List.mem_map.mp hl with ⟨row, _, rfl⟩
    rcases List.mem_flatten.mp hel with ⟨l2, hl2, hel2⟩
    rcases List.mem_map.mp hl2 with ⟨c, _, rfl⟩
    obtain ⟨ch, bg, fg, st⟩ := c
    cases st <;> simp [cellEvents] at hel2 <;>
      rcases hel2 with rfl | rfl | rfl | rfl | rfl <;> simp

/-- Witness for C1 at a concrete 1 by 1 session. -/
theorem present_full_repaint_rowMajor_witness :
    (rb0.back_buffer.length = rb0.height)
    ∧ ((presentEvents rb0).filterMap WriteEvent.charPayload).length
        = rb0.width * rb0.height :=
  ⟨by decide, (present_full_repaint_rowMajor rb0 (by decide) (by decide)).2.1⟩

/-- Claim C2: present is the concatenation of the per-cell emissions over
the row-major cell sequence, and each cell emits, in order, the reset,
the style fragment (omitted exactly when the style is Normal), the
set-foreground and set-background selectors with the masked indices, and
the character; the same ordering holds for the literal byte chunks. -/
theorem present_cell_attribute_order (rb : RustBox) (c : Cell) :
    presentEvents rb = (rb.back_buffer.flatten.map cellEvents).flatten
    ∧ cellEvents c
        = [WriteEvent.sgr0]
            ++ (if c.style = Style.Normal then []
                else [WriteEvent.styleCode c.style])
            ++ [WriteEvent.setFg (c.fg.as_256_color &&& 0xFF),
                WriteEvent.setBg (c.bg.as_256_color &&& 0xFF),
                WriteEvent.ch c.ch]
    ∧ (cellEvents c).map WriteEvent.bytes
        = [sgr0Code]
            ++ (if c.style = Style.Normal then []
                else [(WriteEvent.styleCode c.style).bytes])
            ++ ["\x1b[38;5;" ++ toString (c.fg.as_256_color &&& 0xFF) ++ "m",
                "\x1b[48;5;" ++ toString (c.bg.as_256_color &&& 0xFF) ++ "m",
                String.mk [c.ch]] := by
  refine ⟨flatten_map_flatten rb.back_buffer, ?_, ?_⟩ <;>
    obtain ⟨ch, bg, fg, st⟩ := c <;>
    cases st <;> simp [cellEvents, WriteEvent.bytes]

/-- Claim C10: present never modifies the back buffer or the geometry, and
after present the front buffer equals the back buffer cell for cell. -/
theorem present_preserves_back_buffer (rb : RustBox) :
    (rb.present).back_buffer = rb.back_buffer
    ∧ (rb.present).front_buffer = (rb.present).back_buffer
    ∧ (rb.present).width = rb.width
    ∧ (rb.present).height = rb.height :=
  ⟨rfl, rfl, rfl, rfl⟩

/-- Claim C3, counterexample: on a 1 by 1 terminal the freshly allocated
back buffer is filled with the cell character 'x', which is not the space
character, so the fill cell is not a space-equivalent blank. -/
theorem new_fill_not_blank_counterexample :
    (RustBox.new (some zeroTermios) none true 1 1).map (fun rb => rb.back_buffer)
        = some [[initCell]]
    ∧ initCell.ch = 'x'
    ∧ ¬ initCell.ch = ' ' :=
  ⟨rfl, rfl, by decide⟩

/-- Claim C3, amended: at session start every cell of the freshly
allocated back buffer is the fill cell with character 'x', White
foreground, Black background and Normal style, and the initial front
buffer is a clone of the back buffer, so the two buffers are equal cell
for cell. -/
theorem new_buffers_init (a1 a2 : Option Termios) (r c : Nat) (rb : RustBox)
    (h : RustBox.new a1 a2 true r c = some rb) :
    rb.back_buffer = List.replicate r (List.replicate c initCell)
    ∧ (∀ row ∈ rb.back_buffer, ∀ cell ∈ row, cell = initCell)
    ∧ rb.front_buffer = rb.back_buffer
    ∧ rb.width = c ∧ rb.height = r := by
  have hrb := new_some a1 a2 r c rb h
  subst hrb
  refine ⟨rfl, ?_, rfl, rfl, rfl⟩
  intro row hrow cell hcell
  have hr := List.eq_of_mem_replicate hrow
  subst hr
  exact List.eq_of_mem_replicate hcell

/-- Witness for the amended C3 at a concrete 1 by 1 session. -/
theorem new_buffers_init_witness :
    RustBox.new (some zeroTermios) none true 1 1 = some rbNew
    ∧ rbNew.front_buffer = rbNew.back_buffer :=
  ⟨rfl, (new_buffers_init (some zeroTermios) none 1 1 rbNew rfl).2.2.1⟩

/-- Claim C8, counterexample: with a failing terminal attribute query
(both tcgetattr calls fail) but a successful device open, construction
still produces a session, and the capture operation still returns a
settings value, the zeroed storage. -/
theorem attr_failure_ignored_counterexample :
    RustBox.new none none true 1 1 = some rbNew
    ∧ get_terminal_attr none = zeroTermios :=
  ⟨rfl, rfl⟩

/-- Claim C8, amended: only the device open failure is fatal (the unwrap
panics and no session value is produced); the terminal attribute query
result is ignored, so construction succeeds whenever the device opens,
the captured snapshot is whatever get_terminal_attr returned, and on
query failure get_terminal_attr returns the zero-initialized settings
rather than failing. -/
theorem new_open_failure_fatal (a1 a2 : Option Termios) (r c : Nat) :
    RustBox.new a1 a2 false r c = none
    ∧ (RustBox.new a1 a2 true r c).isSome = true
    ∧ get_terminal_attr none = zeroTermios :=
  ⟨rfl, rfl, rfl⟩

/-- Claim C7, counterexample: in the teardown trace of a concrete session
no flush of the queued output precedes the settings restore; the restore
(at index 4) happens strictly before the buffered device flush (at index
5), contradicting the claimed flush-then-restore order. -/
theorem drop_restore_before_flush_counterexample :
    flushPrecedesRestore (dropTrace rb0) = false
    ∧ restorePrecedesFlush (dropTrace rb0) = true
    ∧ (dropTrace rb0).get? 4 = some (TeardownEvent.restore zeroTermios)
    ∧ (dropTrace rb0).get? 5 = some TeardownEvent.flushDevice :=
  ⟨rfl, rfl, rfl, rfl⟩

/-- Claim C7, amended: on every exit path of an Active session the
teardown runs once and enqueues show-cursor, clear-screen,
exit-alternate-screen, exit-keypad-mode in that order, then reapplies
verbatim the settings snapshot captured at session start, exactly once
(whatever cell operations ran in between); the queued output is flushed
to the device only afterwards, when the buffered file itself is dropped. -/
theorem drop_teardown_trace (o : Termios) (a2 : Option Termios) (r c : Nat)
    (ops : List SessionOp) (rb : RustBox)
    (h : RustBox.new (some o) a2 true r c = some rb) :
    dropTrace (applyOps rb ops)
        = [TeardownEvent.enqueue showCursorCode,
           TeardownEvent.enqueue clearScreenCode,
           TeardownEvent.enqueue exitCaCode,
           TeardownEvent.enqueue exitKeypadCode,
           TeardownEvent.restore o,
           TeardownEvent.flushDevice]
    ∧ (dropTrace (applyOps rb ops)).filter isRestore = [TeardownEvent.restore o]
    ∧ restorePrecedesFlush (dropTrace (applyOps rb ops)) = true
    ∧ flushPrecedesRestore (dropTrace (applyOps rb ops)) = false := by
  have ho : rb.orig_ios = o := by
    have hrb := new_some (some o) a2 r c rb h
    subst hrb
    rfl
  have hops : (applyOps rb ops).orig_ios = o := by
    rw [applyOps_orig ops rb, ho]
  refine ⟨?_, ?_, ?_, ?_⟩ <;>
    simp [dropTrace, hops, isRestore, isFlushDev, restorePrecedesFlush,
      flushPrecedesRestore, List.filter, List.any]

/-- Witness for the amended C7 at a concrete 1 by 1 session. -/
theorem drop_teardown_trace_witness :
    RustBox.new (some zeroTermios) none true 1 1 = some rbNew
    ∧ restorePrecedesFlush (dropTrace (applyOps rbNew [])) = true :=
  ⟨rfl, (drop_teardown_trace zeroTermios none 1 1 [] rbNew rfl).2.2.1⟩

/-- Claim C4: the color-to-index mapping is a total pure function with
Black to 0, Red to 1, White to 7; the mask leaves these values unchanged
and bounds them by 255, and every setFg or setBg index present ever emits
lies in the range 0 to 255. -/
theorem color_index_total_masked :
    (Color.Black.as_256_color = 0
      ∧ Color.Red.as_256_color = 1
      ∧ Color.White.as_256_color = 7)
    ∧ (∀ c : Color, c.as_256_color &&& 0xFF = c.as_256_color
        ∧ c.as_256_color &&& 0xFF ≤ 255)
    ∧ (∀ (rb : RustBox) (e : WriteEvent), e ∈ presentEvents rb →
        ∀ n : Nat, (e = WriteEvent.setFg n ∨ e = WriteEvent.setBg n) →
          n ≤ 255) := by
  refine ⟨⟨rfl, rfl, rfl⟩, ?_, ?_⟩
  · intro c
    cases c <;> exact ⟨rfl, by decide⟩
  · intro rb e he n hn
    rcases List.mem_flatten.mp he with ⟨l, hl, hel⟩
    rcases List.mem_map.mp hl with ⟨row, _, rfl⟩
    rcases List.mem_flatten.mp hel with ⟨l2, hl2, hel2⟩
    rcases List.mem_map.mp hl2 with ⟨c, _, rfl⟩
    apply cellEvents_index_le c n
    rcases hn with rfl | rfl
    · exact Or.inl hel2
    · exact Or.inr hel2

/-- Witness for C4 at a concrete session: the White foreground index 7
emitted by present is within range. -/
theorem color_index_total_masked_witness :
    WriteEvent.setFg 7 ∈ presentEvents rb0 ∧ (7 : Nat) ≤ 255 :=
  ⟨by decide, color_index_total_masked.2.2 rb0 (WriteEvent.setFg 7) (by decide)
    7 (Or.inl rfl)⟩

/-- Claim C5: whenever the flush loop returns, the unconsumed device
results are a suffix and exactly the prefix of the buffer confirmed by
the consumed Ok results has been drained, so a retry never resends
already-sent bytes; a run that ends without error has drained the whole
buffer; a zero-byte write terminates the loop with the WriteZero error
without advancing the count; an interrupted result is retried, consuming
no buffered bytes (and the FlushErr type has no interrupted case, so it
is never surfaced); any other device error terminates the loop and is
surfaced as is. -/
theorem flush_inner_progress_and_errors {α : Type} (buf : List α)
    (rs : List DevResult) :
    (∀ bufR rest e, flush_inner buf rs = some (bufR, rest, e) →
        ∃ pre, rs = pre ++ rest ∧ bufR = buf.drop (okSum pre))
    ∧ (∀ bufR rest, flush_inner buf rs = some (bufR, rest, none) → bufR = [])
    ∧ (∀ w rest, w < buf.length →
        flushLoop buf.length w (DevResult.ok 0 :: rest)
          = some (w, rest, some FlushErr.writeZero))
    ∧ (∀ w rest, w < buf.length →
        flushLoop buf.length w (DevResult.interrupted :: rest)
          = flushLoop buf.length w rest)
    ∧ (∀ w k rest, w < buf.length →
        flushLoop buf.length w (DevResult.errK k :: rest)
          = some (w, rest, some (FlushErr.ioErr k))) := by
  refine ⟨?_, ?_, ?_, ?_, ?_⟩
  · intro bufR rest e h
    unfold flush_inner at h
    cases hl : flushLoop buf.length 0 rs with
    | none => rw [hl] at h; cases h
    | some out =>
      obtain ⟨w2, rest2, e2⟩ := out
      rw [hl] at h
      injection h with h4
      injection h4 with hb h5
      injection h5 with hr he
      subst hb
      obtain ⟨pre, hpre, hwi⟩ := flushLoop_prefix rs buf.length 0 w2 rest2 e2 hl
      refine ⟨pre, ?_, ?_⟩
      · rw [← hr]; exact hpre
      · rw [hwi, Nat.zero_add]
  · intro bufR rest h
    unfold flush_inner at h
    cases hl : flushLoop buf.length 0 rs with
    | none => rw [hl] at h; cases h
    | some out =>
      obtain ⟨w2, rest2, e2⟩ := out
      rw [hl] at h
      injection h with h4
      injection h4 with hb h5
      injection h5 with hr he
      subst hb
      subst he
      exact List.drop_eq_nil_of_le (flushLoop_success_ge rs buf.length 0 w2 rest2 hl)
  · intro w rest hlt
    simp [flushLoop, hlt]
  · intro w rest hlt
    simp [flushLoop, hlt]
  · intro w k rest hlt
    simp [flushLoop, hlt]

/-- Witness for C5: a two-byte buffer fully written by a single Ok(2)
result is drained exactly. -/
theorem flush_inner_progress_and_errors_witness :
    flush_inner ([10, 20] : List Nat) [DevResult.ok 2] = some ([], [], none)
    ∧ ∃ pre, [DevResult.ok 2] = pre ++ ([] : List DevResult)
        ∧ ([] : List Nat) = ([10, 20] : List Nat).drop (okSum pre) :=
  ⟨rfl, (flush_inner_progress_and_errors ([10, 20] : List Nat)
    [DevResult.ok 2]).1 [] [] none rfl⟩

/-- Claim C6: flushing an empty pending buffer consumes no device write
results and succeeds, both for the inner loop and for the full flush that
forwards the device's own (successful) flush; since the buffer stays
empty and no results are consumed, repeated flushes are idempotent. -/
theorem flush_empty_buffer_noop (rs : List DevResult) :
    flush_inner ([] : List Nat) rs = some ([], rs, none)
    ∧ flushFull ([] : List Nat) rs none = some ([], rs, none) := by
  have h1 : flushLoop 0 0 rs = some (0, rs, none) := by
    cases rs with
    | nil => rfl
    | cons r tl => rfl
  constructor
  · unfold flush_inner
    rw [List.length_nil, h1]
    rfl
  · unfold flushFull flush_inner
    rw [List.length_nil, h1]
    rfl

/-- Claim C9: in a well-formed session, print_char at a coordinate with
x at least width or y at least height fails (the source panics on the Vec
index; nothing is clamped and the grid never grows), and at an in-bounds
coordinate it succeeds, writes exactly the addressed cell with the four
given fields, and leaves every other cell, the front buffer, the row
count and the geometry unchanged. -/
theorem print_char_bounds (rb : RustBox) (x y : Nat) (st : Style)
    (fg bg : Color) (c : Char)
    (hh : rb.back_buffer.length = rb.height)
    (hw : ∀ row ∈ rb.back_buffer, row.length = rb.width) :
    ((rb.width ≤ x ∨ rb.height ≤ y) → rb.print_char x y st fg bg c = none)
    ∧ (x < rb.width → y < rb.height →
        ∃ rbp, rb.print_char x y st fg bg c = some rbp
          ∧ ((rbp.back_buffer.get? y).bind fun row => row.get? x)
              = some { ch := c, bg := bg, fg := fg, style := st }
          ∧ (∀ y2 x2, y2 ≠ y ∨ x2 ≠ x →
              ((rbp.back_buffer.get? y2).bind fun row => row.get? x2)
                = ((rb.back_buffer.get? y2).bind fun row => row.get? x2))
          ∧ rbp.front_buffer = rb.front_buffer
          ∧ rbp.width = rb.width ∧ rbp.height = rb.height
          ∧ rbp.back_buffer.length = rb.back_buffer.length) := by
  constructor
  · intro hout
    cases hy : rb.back_buffer.get? y with
    | none => simp only [RustBox.print_char, hy]
    | some row =>
      have hrow : row ∈ rb.back_buffer := List.get?_mem hy
      have hylt : y < rb.back_buffer.length := by
        by_contra hge
        rw [List.get?_eq_none.mpr (Nat.le_of_not_lt hge)] at hy
        cases hy
      rcases hout with hx | hy2
      · have hxout : row.get? x = none := by
          apply List.get?_eq_none.mpr
          rw [hw row hrow]
          exact hx
        simp only [RustBox.print_char, hy, hxout]
      · exact absurd (hh ▸ hylt) (Nat.not_lt_of_le hy2)
  · intro hx hy
    have hylt : y < rb.back_buffer.length := by rw [hh]; exact hy
    cases hget : rb.back_buffer.get? y with
    | none =>
      rw [List.get?_eq_get hylt] at hget
      cases hget
    | some row =>
      have hrow : row ∈ rb.back_buffer := List.get?_mem hget
      have hxlt : x < row.length := by rw [hw row hrow]; exact hx
      cases hcell : row.get? x with
      | none =>
        rw [List.get?_eq_get hxlt] at hcell
        cases hcell
      | some cell =>
        refine ⟨_, print_char_some rb x y st fg bg c row cell hget hcell,
          ?_, ?_, rfl, rfl, rfl, List.length_set _ _ _⟩
        · have h1 : (rb.back_buffer.set y
              (row.set x { ch := c, bg := bg, fg := fg, style := st })).get? y
              = some (row.set x { ch := c, bg := bg, fg := fg, style := st }) :=
            listGetSet_eq rb.back_buffer y _ hylt
          simp only [h1, Option.bind_some]
          exact listGetSet_eq row x _ hxlt
        · intro y2 x2 hne
          by_cases hy2 : y2 = y
          · subst hy2
            rcases hne with hne | hne
            · exact absurd rfl hne
            · have h1 : (rb.back_buffer.set y2
                  (row.set x { ch := c, bg := bg, fg := fg, style := st })).get? y2
                  = some (row.set x { ch := c, bg := bg, fg := fg, style := st }) :=
                listGetSet_eq rb.back_buffer y2 _ hylt
              simp only [h1, hget, Option.bind_some]
              exact listGetSet_ne row x x2 _ (fun he => hne (he.symm))
          · have h1 := listGetSet_ne rb.back_buffer y y2
              (row.set x { ch := c, bg := bg, fg := fg, style := st })
              (fun he => hy2 (he.symm))
            simp only [h1]

/-- Witness for C9: both branches at a concrete 1 by 1 session, with the
out-of-bounds coordinate x = 1 and the in-bounds coordinate (0, 0). -/
theorem print_char_bounds_witness :
    rb0.print_char 1 0 Style.Bold Color.Red Color.White 'Z' = none
    ∧ ∃ rbp, rb0.print_char 0 0 Style.Bold Color.Red Color.White 'Z' = some rbp
        ∧ ((rbp.back_buffer.get? 0).bind fun row => row.get? 0)
            = some { ch := 'Z', bg := Color.White, fg := Color.Red,
                     style := Style.Bold } := by
  refine ⟨(print_char_bounds rb0 1 0 Style.Bold Color.Red Color.White 'Z'
    (by decide) (by decide)).1 (Or.inl (by decide)), ?_⟩
  obtain ⟨rbp, h1, h2, _⟩ := (print_char_bounds rb0 0 0 Style.Bold Color.Red
    Color.White 'Z' (by decide) (by decide)).2 (by decide) (by decide)
  exact ⟨rbp, h1, h2⟩
